import Mathlib

/-!
Verification of the ground-heat-exchanger core (GroundHeatExchangers.cc) against
its specification.  The module's arithmetic is embedded over `ℚ` (the source's
`Real64`), with FORTRAN-style 1-based arrays embedded as total functions `ℤ → ℚ`
(reads in the source always stay inside the allocated bounds; the functional
model is index-faithful on that range).  Transcendental parts of the source
(`std::log`, `std::log10`, `erfc`-based kernels, `π`) are abstracted as
function/constant parameters of the model, as noted at each definition.
-/

namespace GroundHeatExchangers

/-- Truncation of a `Real64` value on conversion to a C `int`
(rounds toward zero, as in C++). -/
def ratTrunc (q : ℚ) : ℤ := if 0 ≤ q then ⌊q⌋ else -⌊-q⌋

/-- Fortran/ObjexxFCL `mod(a, p)` on `Real64` values: `a - int(a/p)*p`
(same as `std::fmod` for these arguments). -/
def ratMod (a p : ℚ) : ℚ := a - (ratTrunc (a / p) : ℚ) * p

/-- ObjexxFCL `eoshift(A, -1, bv)` on a 1-based `Real64` array: the array is
shifted right by one, entry 1 receives the boundary value `bv`. -/
def eoshiftQ (A : ℤ → ℚ) (bv : ℚ) : ℤ → ℚ := fun i => if i = 1 then bv else A (i - 1)

/-- ObjexxFCL `eoshift(A, -1, bv)` on a 1-based integer array. -/
def eoshiftZ (A : ℤ → ℤ) (bv : ℤ) : ℤ → ℤ := fun i => if i = 1 then bv else A (i - 1)

/-- A g-function table: `NPairs` pairs `(LNTTS i, GFNC i)` for `i = 1..NPairs`,
exactly the fields read by `GLHEBase::interpGFunc`. -/
structure GFuncTable where
  NPairs : ℤ
  LNTTS : ℤ → ℚ
  GFNC : ℤ → ℚ

/-- The binary-search loop of `GLHEBase::interpGFunc`
(GroundHeatExchangers.cc lines 1920-1937): searches `L` for an index whose
entry equals `q` between `low` and `high`; on failure reports the last probed
index `lastMid` (the C loop keeps `Mid` in scope after exit).  Integer division
by 2 agrees with the C `( Low + High ) / 2` on the nonnegative indices that
occur. -/
def bsGo (L : ℤ → ℚ) (q : ℚ) (low high lastMid : ℤ) : Bool × ℤ :=
  if low ≤ high then
    if L ((low + high) / 2) < q then bsGo L q ((low + high) / 2 + 1) high ((low + high) / 2)
    else if q < L ((low + high) / 2) then
      bsGo L q low ((low + high) / 2 - 1) ((low + high) / 2)
    else (true, (low + high) / 2)
  else (false, lastMid)
termination_by (high + 1 - low).toNat
decreasing_by
  all_goals omega

/-- Line 1948: after an unsuccessful search, `if ( LNTTS( Mid ) < LnTTsVal )
++Mid;` — the interpolation index is bumped so that `(Mid-1, Mid)` brackets
the query. -/
def bsAdj (L : ℤ → ℚ) (q : ℚ) (m : ℤ) : ℤ := if L m < q then m + 1 else m

/-- `GLHEBase::interpGFunc` (GroundHeatExchangers.cc lines 1849-1954):
interpolates or extrapolates the g-function table at a known value of
`ln(t/ts)`.  Below the first entry and above the last entry the value is the
linear extrapolation through the two boundary-adjacent entries; otherwise a
binary search locates an exact or bracketing index and the value is linearly
interpolated between entries `Mid-1` and `Mid`. -/
def interpGFunc (tb : GFuncTable) (LnTTsVal : ℚ) : ℚ :=
  if LnTTsVal ≤ tb.LNTTS 1 then
    ((LnTTsVal - tb.LNTTS 1) / (tb.LNTTS 2 - tb.LNTTS 1)) * (tb.GFNC 2 - tb.GFNC 1) + tb.GFNC 1
  else if tb.LNTTS tb.NPairs < LnTTsVal then
    ((LnTTsVal - tb.LNTTS tb.NPairs) / (tb.LNTTS (tb.NPairs - 1) - tb.LNTTS tb.NPairs)) *
      (tb.GFNC (tb.NPairs - 1) - tb.GFNC tb.NPairs) + tb.GFNC tb.NPairs
  else
    match bsGo tb.LNTTS LnTTsVal 1 tb.NPairs 0 with
    | (true, mid) => tb.GFNC mid
    | (false, mid0) =>
      ((LnTTsVal - tb.LNTTS (bsAdj tb.LNTTS LnTTsVal mid0)) /
          (tb.LNTTS (bsAdj tb.LNTTS LnTTsVal mid0 - 1) - tb.LNTTS (bsAdj tb.LNTTS LnTTsVal mid0))) *
        (tb.GFNC (bsAdj tb.LNTTS LnTTsVal mid0 - 1) - tb.GFNC (bsAdj tb.LNTTS LnTTsVal mid0)) +
        tb.GFNC (bsAdj tb.LNTTS LnTTsVal mid0)

/-- The point `(x, y)` lies on the straight line through `(x1, y1)` and
`(x2, y2)` (division-free collinearity form). -/
def onSegment (x1 y1 x2 y2 x y : ℚ) : Prop :=
  (y - y1) * (x2 - x1) = (x - x1) * (y2 - y1)

/-- Per-device configuration constants read by `GLHEBase::calcGroundHeatExchanger`.
`RQ x` abstracts the composition
`interpGFunc(log(x / timeSSFactor)) / (2 π kGround)` — i.e. the g-function
response factor at elapsed time `x` hours, after every one of the source's
`gFuncVal / kGroundFactor` divisions (the enclosed `std::log` is transcendental,
so the composition is a model parameter). -/
structure GLHEConfig where
  tempGround : ℚ
  totalTubeLength : ℚ
  SubAGG : ℤ
  AGG : ℤ
  RQ : ℚ → ℚ

/-- Per-call inputs of `GLHEBase::calcGroundHeatExchanger`: the simulation
clock (`DayOfSim`, `HourOfDay`, `TimeStep`, `TimeStepZone`, `SysTimeElapsed`,
`WarmupFlag`), the node inlet temperature, the regulated mass flow rate, and
the externally supplied fluid/loop quantities `cpFluid` (from
`GetSpecificHeatGlycol`) and `HXResistance` (computed by `calcHXResistance`
from external fluid-property calls). -/
structure GLHEInputs where
  dayOfSim : ℤ
  hourOfDay : ℤ
  timeStep : ℤ
  timeStepZone : ℚ
  sysTimeElapsed : ℚ
  warmupFlag : Bool
  inletTemp : ℚ
  massFlowRate : ℚ
  cpFluid : ℚ
  hxResistance : ℚ

/-- The mutable state touched by `calcGroundHeatExchanger` and
`calcAggregateLoad`: the module statics (`N`, `PrevN`, `currentSimTime`,
`locHourOfDay`, `locDayOfSim`, `prevTimeSteps`, `updateCurSimTime`,
`triggerDesignDayReset`) together with the per-device history arrays and
report fields. -/
structure GLHEState where
  N : ℤ
  prevN : ℤ
  currentSimTime : ℚ
  locHourOfDay : ℤ
  locDayOfSim : ℤ
  prevTimeSteps : ℤ → ℚ
  updateCurSimTime : Bool
  triggerDesignDayReset : Bool
  qnHr : ℤ → ℚ
  qnSubHr : ℤ → ℚ
  qnMonthlyAgg : ℤ → ℚ
  lastHourN : ℤ → ℤ
  lastQnSubHr : ℚ
  prevHour : ℤ
  inletTemp : ℚ
  outletTemp : ℚ
  QGLHE : ℚ
  aveFluidTemp : ℚ
  boreholeTemp : ℚ

/-- Line 942: `currentSimTime = (DayOfSim-1)*24 + HourOfDay - 1 +
(TimeStep-1)*TimeStepZone + SysTimeElapsed`. -/
def computedSimTime (inp : GLHEInputs) : ℚ :=
  ((inp.dayOfSim - 1 : ℤ) : ℚ) * 24 + ((inp.hourOfDay : ℚ) - 1)
    + ((inp.timeStep - 1 : ℤ) : ℚ) * inp.timeStepZone + inp.sysTimeElapsed

/-- Lines 920-952 of `calcGroundHeatExchanger`: read the inlet temperature,
run the warmup/design-day reset logic (zeroing all history arrays when it
fires), recompute `currentSimTime`, `locHourOfDay`, `locDayOfSim`, and update
the reset bookkeeping flags. -/
def applyResetAndClock (inp : GLHEInputs) (s : GLHEState) : GLHEState :=
  let s0 := { s with inletTemp := inp.inletTemp }
  let u1 : Bool := (s0.triggerDesignDayReset && inp.warmupFlag) || s0.updateCurSimTime
  let s1 :=
    if inp.dayOfSim = 1 ∧ u1 = true then
      { s0 with
        currentSimTime := 0, prevTimeSteps := (fun _ => 0), qnHr := (fun _ => 0),
        qnMonthlyAgg := (fun _ => 0), qnSubHr := (fun _ => 0), lastHourN := (fun _ => 1),
        N := 1, updateCurSimTime := false, triggerDesignDayReset := false }
    else { s0 with updateCurSimTime := u1 }
  let cst := computedSimTime inp
  let s2 := { s1 with
              currentSimTime := cst,
              locHourOfDay := ratTrunc (ratMod cst 24 + 1),
              locDayOfSim := ratTrunc (cst / 24 + 1) }
  let s3 := if 1 < inp.dayOfSim then { s2 with updateCurSimTime := true } else s2
  if inp.warmupFlag = false then { s3 with triggerDesignDayReset := true } else s3

/-- Lines 963-971: push `currentSimTime` into `prevTimeSteps` (and advance `N`)
when a new time step occurs, and push the previous step's realized pulse
`lastQnSubHr` into `QnSubHr` when `N` advanced past `PrevN`. -/
def pushHistory (s : GLHEState) : GLHEState :=
  let s1 :=
    if s.prevTimeSteps 1 ≠ s.currentSimTime then
      { s with prevTimeSteps := eoshiftQ s.prevTimeSteps s.currentSimTime, N := s.N + 1 }
    else s
  if s1.N ≠ s1.prevN then
    { s1 with prevN := s1.N, qnSubHr := eoshiftQ s1.qnSubHr s1.lastQnSubHr }
  else s1

/-- `GLHEBase::calcAggregateLoad` (lines 1217-1283).  On an hour-boundary
crossing (`prevHour != locHourOfDay`) the sub-hourly pulses of the elapsed hour
are folded into a flow-weighted time average that is pushed into `QnHr`, and
`LastHourN` records the step counter; on a month boundary the most recent 730
hourly values are averaged into `QnMonthlyAgg`.  `jF` is the value the loop
counter `J` holds after the summing loop (the divisor reads `prevTimeSteps(J)`
with that final `J`). -/
def hourlyAggStep (s : GLHEState) : GLHEState :=
  if s.prevHour ≠ s.locHourOfDay then
    let limit := s.N - s.lastHourN 1
    let jF := if 1 ≤ limit then limit + 1 else 1
    let total :=
      ∑ J ∈ Finset.Icc (1 : ℤ) limit,
        s.qnSubHr J * |s.prevTimeSteps J - s.prevTimeSteps (J + 1)|
    let sumQnHr := total / |s.prevTimeSteps 1 - s.prevTimeSteps jF|
    { s with qnHr := eoshiftQ s.qnHr sumQnHr, lastHourN := eoshiftZ s.lastHourN s.N }
  else s

/-- Lines 1269-1278: on a month-boundary crossing, the most recent 730 entries
of the (already shifted) hourly sequence are averaged into
`QnMonthlyAgg(MonthNum)`.  The guard and `MonthNum` read only fields that
`hourlyAggStep` leaves unchanged, so they may be read from its output. -/
def monthlyAggStep (s : GLHEState) : GLHEState :=
  if ratMod (((s.locDayOfSim - 1) * 24 + s.locHourOfDay : ℤ) : ℚ) 730 = 0
      ∧ s.prevHour ≠ s.locHourOfDay then
    let monthNum := ratTrunc (((s.locDayOfSim * 24 + s.locHourOfDay : ℤ) : ℚ) / 730)
    let sumQnMonth := (∑ J ∈ Finset.Icc (1 : ℤ) 730, s.qnHr J) / 730
    { s with qnMonthlyAgg := fun i => if i = monthNum then sumQnMonth else s.qnMonthlyAgg i }
  else s

/-- Lines 1279-1281: record the hour that has now been aggregated. -/
def prevHourUpdate (s : GLHEState) : GLHEState :=
  if s.prevHour ≠ s.locHourOfDay then { s with prevHour := s.locHourOfDay } else s

def calcAggregateLoad (s : GLHEState) : GLHEState :=
  if s.currentSimTime ≤ 0 then s
  else prevHourUpdate (monthlyAggStep (hourlyAggStep s))

/-- Lines 996-1028: sub-hourly superposition in the no-monthly-aggregation
branch.  The last loop iteration references the hourly bucket `QnHr(IndexN)`
once the elapsed time has passed `SubAGG` hours. -/
def sumSubNoAgg (cfg : GLHEConfig) (s : GLHEState) : ℚ :=
  let cst := s.currentSimTime
  let indexN : ℤ := if ratTrunc cst < cfg.SubAGG then ratTrunc cst + 1 else cfg.SubAGG + 1
  let limit := s.N - s.lastHourN indexN
  ∑ I ∈ Finset.Icc (1 : ℤ) limit,
    (if I = limit then
      (if cfg.SubAGG ≤ ratTrunc cst then
        (s.qnSubHr I - s.qnHr indexN) * cfg.RQ (cst - s.prevTimeSteps (I + 1))
      else
        s.qnSubHr I * cfg.RQ (cst - s.prevTimeSteps (I + 1)))
    else
      (s.qnSubHr I - s.qnSubHr (I + 1)) * cfg.RQ (cst - s.prevTimeSteps (I + 1)))

/-- Lines 1030-1048: hourly superposition in the no-monthly-aggregation branch. -/
def sumHourlyNoAgg (cfg : GLHEConfig) (s : GLHEState) : ℚ :=
  let cst := s.currentSimTime
  let limit := ratTrunc cst
  ∑ I ∈ Finset.Icc (cfg.SubAGG + 1) limit,
    (if I = limit then s.qnHr I * cfg.RQ cst
    else (s.qnHr I - s.qnHr (I + 1)) * cfg.RQ (cst - (ratTrunc cst : ℚ) + (I : ℚ)))

/-- Lines 1075-1081: the month index whose hourly tail is still superposed
explicitly. -/
def currentMonthOf (cfg : GLHEConfig) (s : GLHEState) : ℤ :=
  let cst := s.currentSimTime
  let numOfMonths := ratTrunc ((cst + 1) / 730)
  if cst < (numOfMonths : ℚ) * 730 + (cfg.AGG : ℚ) + (cfg.SubAGG : ℚ) then numOfMonths - 1
  else numOfMonths

/-- Lines 1085-1100: monthly superposition. -/
def sumMonthly (cfg : GLHEConfig) (s : GLHEState) : ℚ :=
  let cst := s.currentSimTime
  ∑ I ∈ Finset.Icc (1 : ℤ) (currentMonthOf cfg s),
    (if I = 1 then s.qnMonthlyAgg 1 * cfg.RQ cst
    else (s.qnMonthlyAgg I - s.qnMonthlyAgg (I - 1)) * cfg.RQ (cst - ((I - 1 : ℤ) : ℚ) * 730))

/-- Lines 1102-1120: hourly superposition in the monthly-aggregation branch. -/
def sumHourlyAgg (cfg : GLHEConfig) (s : GLHEState) : ℚ :=
  let cst := s.currentSimTime
  let limit := ratTrunc (cst - (currentMonthOf cfg s : ℚ) * 730)
  ∑ I ∈ Finset.Icc (cfg.SubAGG + 1) limit,
    (if I = limit then
      (s.qnHr I - s.qnMonthlyAgg (currentMonthOf cfg s)) *
        cfg.RQ (cst - (ratTrunc cst : ℚ) + (I : ℚ))
    else
      (s.qnHr I - s.qnHr (I + 1)) * cfg.RQ (cst - (ratTrunc cst : ℚ) + (I : ℚ)))

/-- Lines 1122-1140: sub-hourly superposition in the monthly-aggregation branch. -/
def sumSubAgg (cfg : GLHEConfig) (s : GLHEState) : ℚ :=
  let cst := s.currentSimTime
  let limit := s.N - s.lastHourN (cfg.SubAGG + 1)
  ∑ I ∈ Finset.Icc (1 : ℤ) limit,
    (if I = limit then
      (s.qnSubHr I - s.qnHr (cfg.SubAGG + 1)) * cfg.RQ (cst - s.prevTimeSteps (I + 1))
    else
      (s.qnSubHr I - s.qnSubHr (I + 1)) * cfg.RQ (cst - s.prevTimeSteps (I + 1)))

/-- The total superposed temperature drop `sumTotal` of
`calcGroundHeatExchanger` on the post-aggregation state: `0` on the very first
step (`N = 1`, line 903 initialization is never overwritten in that branch),
the sub-hourly plus hourly sums before the monthly window opens (line 994),
and all three resolutions afterwards (line 1142). -/
def sumTotalOf (cfg : GLHEConfig) (s : GLHEState) : ℚ :=
  if s.N = 1 then 0
  else if s.currentSimTime < 730 + (cfg.AGG : ℚ) + (cfg.SubAGG : ℚ) then
    sumSubNoAgg cfg s + sumHourlyNoAgg cfg s
  else
    sumMonthly cfg s + sumHourlyAgg cfg s + sumSubAgg cfg s

/-- Lines 984-990: the first-step (`N = 1`) direct solve.  Returns
`(tmpQnSubHourly, fluidAveTemp, ToutNew)`; `rq` is `gFuncVal / kGroundFactor`
at `XI = log(currentSimTime / timeSSFactor)`. -/
def solveFirstStep (cfg : GLHEConfig) (inp : GLHEInputs) (rq : ℚ) : ℚ × ℚ × ℚ :=
  let c1 := cfg.totalTubeLength / (2 * inp.massFlowRate * inp.cpFluid)
  let q := (cfg.tempGround - inp.inletTemp) / (rq + inp.hxResistance + c1)
  (q, cfg.tempGround - q * inp.hxResistance,
    cfg.tempGround - q * (rq + inp.hxResistance - c1))

/-- Lines 1064-1070 (and the identical lines 1156-1162): the general
superposition solve.  Returns `(tmpQnSubHourly, fluidAveTemp, ToutNew)`;
`rq` is the response factor at `XI = log((currentSimTime - prevTimeSteps(2)) /
timeSSFactor)`, `sumTotal` the superposed history sum, `qnSubHr1` the entry
`QnSubHr(1)`. -/
def solveGeneral (cfg : GLHEConfig) (inp : GLHEInputs) (rq sumTotal qnSubHr1 : ℚ) :
    ℚ × ℚ × ℚ :=
  let c0 := rq
  let c1 := cfg.tempGround - (sumTotal - qnSubHr1 * rq)
  let c2 := cfg.totalTubeLength / (2 * inp.massFlowRate * inp.cpFluid)
  let c3 := inp.massFlowRate * inp.cpFluid / cfg.totalTubeLength
  let q := (c1 - inp.inletTemp) / (inp.hxResistance + c0 - c2 + 1 / c3)
  (q, c1 - (c0 + inp.hxResistance) * q, c1 + (c2 - c0 - inp.hxResistance) * q)

/-- Lines 978-1165: dispatch between the first-step solve, the general solve,
and the two zero-flow shortcuts, producing
`(tmpQnSubHourly, fluidAveTemp, ToutNew)` from the post-aggregation state. -/
def calcOutputs (cfg : GLHEConfig) (inp : GLHEInputs) (s : GLHEState) : ℚ × ℚ × ℚ :=
  if s.N = 1 then
    if inp.massFlowRate ≤ 0 then (0, cfg.tempGround, inp.inletTemp)
    else solveFirstStep cfg inp (cfg.RQ s.currentSimTime)
  else
    let sumTot := sumTotalOf cfg s
    let rq := cfg.RQ (s.currentSimTime - s.prevTimeSteps 2)
    if inp.massFlowRate ≤ 0 then (0, cfg.tempGround - sumTot, inp.inletTemp)
    else solveGeneral cfg inp rq sumTot (s.qnSubHr 1)

/-- `GLHEBase::calcGroundHeatExchanger` (lines 838-1174) as a state transformer.
When the recomputed `currentSimTime` is `≤ 0` the routine clears
`prevTimeSteps`, passes the inlet temperature through as outlet temperature,
calls `calcAggregateLoad` (a no-op at nonpositive time) and returns; otherwise
it pushes history, aggregates, solves, and stores the report fields. -/
def calcGroundHeatExchanger (cfg : GLHEConfig) (inp : GLHEInputs) (s : GLHEState) :
    GLHEState :=
  let s1 := applyResetAndClock inp s
  if s1.currentSimTime ≤ 0 then
    calcAggregateLoad { s1 with prevTimeSteps := (fun _ => 0), outletTemp := s1.inletTemp }
  else
    let s3 := calcAggregateLoad (pushHistory s1)
    let out := calcOutputs cfg inp s3
    { s3 with
      boreholeTemp := cfg.tempGround - sumTotalOf cfg s3,
      lastQnSubHr := out.1, outletTemp := out.2.2,
      QGLHE := out.1 * cfg.totalTubeLength, aveFluidTemp := out.2.1 }

/-- The slinky-field geometry and kernels used by `GLHESlinky::calcGFunctions`
(lines 255-446).  `twoPi` stands for the irrational node-interval bound `2 π`
of the Simpson integrations; `nearKernel m n m1 n1 eta theta t` stands for the
`erfc`-based `nearFieldResponseFunction` and `midKernel m n m1 n1 t` for the
`erfc`-based `midFieldResponseFunction` (both transcendental, so model
parameters). -/
structure SlinkyConfig where
  numTrenches : ℤ
  numCoils : ℤ
  coilPitch : ℚ
  trenchSpacing : ℚ
  coilDiameter : ℚ
  twoPi : ℚ
  nearKernel : ℤ → ℤ → ℤ → ℤ → ℚ → ℚ → ℚ → ℚ
  midKernel : ℤ → ℤ → ℤ → ℤ → ℚ → ℚ

/-- Line 333: `X0(coil) = coilPitch * (coil - 1)`. -/
def X0 (c : SlinkyConfig) (n : ℤ) : ℚ := c.coilPitch * ((n : ℚ) - 1)

/-- Line 336: `Y0(trench) = (trench - 1) * trenchSpacing`. -/
def Y0 (c : SlinkyConfig) (m : ℤ) : ℚ := ((m : ℚ) - 1) * c.trenchSpacing

/-- The square of `GLHESlinky::distToCenter` (lines 656-675).  The source
compares `sqrt(dx^2 + dy^2)` against nonnegative thresholds; the model compares
the squares, which is equivalent. -/
def distToCenterSq (c : SlinkyConfig) (m n m1 n1 : ℤ) : ℚ :=
  (X0 c n - X0 c n1) ^ 2 + (Y0 c m - Y0 c m1) ^ 2

/-- `GLHESlinky::isEven` (lines 679-699). -/
def isEven (val : ℤ) : Bool := val % 2 = 0

/-- Line 328: `numLC = ceil(numCoils / 2.0)` (integer form for nonnegative
counts). -/
def numLC (c : SlinkyConfig) : ℤ := (c.numCoils + 1) / 2

/-- Line 329: `numRC = ceil(numTrenches / 2.0)` (integer form for nonnegative
counts). -/
def numRC (c : SlinkyConfig) : ℤ := (c.numTrenches + 1) / 2

/-- `GLHESlinky::integral` (lines 703-757): Simpson's 1/3 rule over the
observation ring's angular parameter `theta` from `0` to `2 π` with `J0`
nodes, applied to the near-field point-to-point response kernel. -/
def integral (c : SlinkyConfig) (m n m1 n1 : ℤ) (t eta : ℚ) (J0 : ℤ) : ℚ :=
  let theta1 : ℚ := 0
  let theta2 : ℚ := c.twoPi
  let h := (theta2 - theta1) / ((J0 : ℚ) - 1)
  (h / 3) *
    ∑ j ∈ Finset.Icc (1 : ℤ) J0,
      (let theta := theta1 + ((j : ℚ) - 1) * h
       let fj := c.nearKernel m n m1 n1 eta theta t
       if j = 1 ∨ j = J0 then fj else if isEven j then 4 * fj else 2 * fj)

/-- `GLHESlinky::doubleIntegral` (lines 760-814): Simpson's 1/3 rule over the
source ring's angular parameter `eta` from `0` to `2 π` with `I0` nodes, the
integrand being `integral` with `J0` inner nodes. -/
def doubleIntegral (c : SlinkyConfig) (m n m1 n1 : ℤ) (t : ℚ) (I0 J0 : ℤ) : ℚ :=
  let eta1 : ℚ := 0
  let eta2 : ℚ := c.twoPi
  let h := (eta2 - eta1) / ((I0 : ℚ) - 1)
  (h / 3) *
    ∑ i ∈ Finset.Icc (1 : ℤ) I0,
      (let eta := eta1 + ((i : ℚ) - 1) * h
       let gi := integral c m n m1 n1 t eta J0
       if i = 1 ∨ i = I0 then gi else if isEven i then 4 * gi else 2 * gi)

/-- The symmetry weight applied to a ring pair's response (lines 396-404 and
the identical lines 422-430): 0.25 at the doubly-symmetric center ring of an
odd×odd multi-trench field, 0.5 on a single symmetry axis, 1 otherwise.  The
source's `numTrenches > 1.5` on an `int` is `1 < numTrenches`. -/
def gFuncWeight (c : SlinkyConfig) (m1 n1 : ℤ) : ℚ :=
  if ¬ isEven c.numTrenches ∧ ¬ isEven c.numCoils ∧ m1 = numRC c ∧ n1 = numLC c
      ∧ 1 < c.numTrenches then 1 / 4
  else if ¬ isEven c.numTrenches ∧ m1 = numRC c ∧ 1 < c.numTrenches then 1 / 2
  else if ¬ isEven c.numCoils ∧ n1 = numLC c then 1 / 2
  else 1

/-- One ring pair's contribution `gFuncin` to the field response in
`GLHESlinky::calcGFunctions` (lines 368-434), uncached path.  (The `valStored`
cache reuses the value of an earlier pair with the same index offsets
`(|m-m1|, |n-n1|)`; such pairs have the same center distance, hence take the
same branch and produce the same value, so the uncached value is the stored
one.)  Near field (`d <= 2.5 + coilDiameter`): Simpson double integral with
`I0 = 33` outer nodes and `J0 = 1089` inner nodes for a ring's self-response
(`m1 == m && n1 == n`), `J0 = 561` otherwise.  Far field
(`d > 10 + coilDiameter`): zero.  Mid field: the closed-form
`midFieldResponseFunction`.  Distances are compared through their squares. -/
def gFuncin (c : SlinkyConfig) (m n m1 n1 : ℤ) (t : ℚ) : ℚ :=
  let I0 : ℤ := 33
  let J0 : ℤ := if m1 = m ∧ n1 = n then 1089 else 561
  if distToCenterSq c m n m1 n1 ≤ (5 / 2 + c.coilDiameter) ^ 2 then
    gFuncWeight c m1 n1 * doubleIntegral c m n m1 n1 t I0 J0
  else if (10 + c.coilDiameter) ^ 2 < distToCenterSq c m n m1 n1 then 0
  else gFuncWeight c m1 n1 * c.midKernel m n m1 n1 t

/-- Line 275: `convertYearsToSeconds = 356 * 24 * 60 * 60` — the (356-day)
year-to-seconds factor used by `GLHESlinky::calcGFunctions`. -/
def convertYearsToSeconds : ℚ := 356 * 24 * 60 * 60

/-- Line 307: `tLg_max = log10(maxSimYears * convertYearsToSeconds / ts)` with
`ts = 3600`; `lg10` stands for the transcendental `std::log10`. -/
def slinkyTLgMax (lg10 : ℚ → ℚ) (maxSimYears : ℚ) : ℚ :=
  lg10 (maxSimYears * convertYearsToSeconds / 3600)

/-- Line 308: `NPairs = (tLg_max - tLg_min) / tLg_grid + 1` with
`tLg_min = -2`, `tLg_grid = 0.25`, truncated on conversion to `int`. -/
def slinkyNPairs (lg10 : ℚ → ℚ) (maxSimYears : ℚ) : ℤ :=
  ratTrunc ((slinkyTLgMax lg10 maxSimYears - (-2)) / (1 / 4) + 1)

/-- Lines 350 and 442: the log-time grid value stored in `LNTTS(NT)`:
`tLg = tLg_min + tLg_grid * (NT - 1)`. -/
def slinkyLNTTS (NT : ℤ) : ℚ := -2 + (1 / 4) * ((NT : ℚ) - 1)

/-- The one-time g-function guard of `GLHEBase::calcGroundHeatExchanger`
(lines 910-918): `static bool firstTime( true )` is a function-local static of
the shared base-class member function, so the flag is one per program, shared
by every vertical and slinky device.  `gFuncsComputed d` records whether
`calcGFunctions` has run for device `d`; `thermalCalls d` counts that device's
completed thermal-response computations. -/
structure GFuncGuardState where
  firstTime : Bool
  gFuncsComputed : ℕ → Bool
  thermalCalls : ℕ → ℕ

/-- State before any device has called `calcGroundHeatExchanger`. -/
def initialGuardState : GFuncGuardState :=
  { firstTime := true, gFuncsComputed := fun _ => false, thermalCalls := fun _ => 0 }

/-- One invocation of `calcGroundHeatExchanger` by device `d`, restricted to
the guard's effect: if the shared `firstTime` flag is set, run `calcGFunctions`
for `d` (only) and clear the flag; then perform the thermal-response
computation for `d`. -/
def callDevice (d : ℕ) (st : GFuncGuardState) : GFuncGuardState :=
  let st1 :=
    if st.firstTime then
      { st with
        gFuncsComputed := fun j => if j = d then true else st.gFuncsComputed j,
        firstTime := false }
    else st
  { st1 with thermalCalls := fun j => if j = d then st1.thermalCalls j + 1 else st1.thermalCalls j }

/-- A sequence of device invocations, earliest first. -/
def runCalls : List ℕ → GFuncGuardState → GFuncGuardState
  | [], st => st
  | d :: ds, st => runCalls ds (callDevice d st)

/-- The pipe-geometry validation of `GetGroundHeatExchangerInput` (lines
1424-1430 for vertical devices, lines 1632-1638 for slinky devices): the input
is invalid when `pipeThick >= pipeOutDia / 2.0`, i.e. the inner pipe radius
`pipeOutDia / 2 - pipeThick` would be `<= 0`. -/
def pipeGeometryInvalid (pipeThick pipeOutDia : ℚ) : Bool :=
  pipeOutDia / 2 ≤ pipeThick

/-- `SimGroundHeatExchangers` ordering (lines 163-166 and 192-204): input
processing (including the geometry checks, whose failure ends in
`ShowFatalError` at lines 1465-1467 / 1640-1643, aborting the run) happens on
the first call, before any `calcGroundHeatExchanger`.  The model returns
`none` when setup aborts fatally, otherwise the state after the first
thermal-response computation. -/
def simFirstCallOutcome (pipeThick pipeOutDia : ℚ) (cfg : GLHEConfig)
    (inp : GLHEInputs) (s : GLHEState) : Option GLHEState :=
  if pipeGeometryInvalid pipeThick pipeOutDia then none
  else some (calcGroundHeatExchanger cfg inp s)

/-- Clock equality between two calls: the enclosing loop re-invokes the device
within one timestep with the same simulation-clock values (inlet temperature,
flow rate and fluid properties may differ between outer iterations). -/
def sameClock (i j : GLHEInputs) : Prop :=
  i.dayOfSim = j.dayOfSim ∧ i.hourOfDay = j.hourOfDay ∧ i.timeStep = j.timeStep ∧
  i.timeStepZone = j.timeStepZone ∧ i.sysTimeElapsed = j.sysTimeElapsed ∧
  i.warmupFlag = j.warmupFlag

/-- Concrete device configuration used by witnesses. -/
def wCfg : GLHEConfig :=
  { tempGround := 15, totalTubeLength := 100, SubAGG := 15, AGG := 192, RQ := fun _ => 0 }

/-- Concrete quiescent device state used by witnesses. -/
def wState : GLHEState :=
  { N := 1, prevN := 1, currentSimTime := 0, locHourOfDay := 0, locDayOfSim := 0,
    prevTimeSteps := fun _ => 0, updateCurSimTime := true, triggerDesignDayReset := false,
    qnHr := fun _ => 0, qnSubHr := fun _ => 0, qnMonthlyAgg := fun _ => 0,
    lastHourN := fun _ => 1, lastQnSubHr := 0, prevHour := 0, inletTemp := 0,
    outletTemp := 0, QGLHE := 0, aveFluidTemp := 0, boreholeTemp := 0 }

/-- Concrete inputs whose recomputed elapsed time is `0` (first instant of day
1, hour 1). -/
def wInp0 : GLHEInputs :=
  { dayOfSim := 1, hourOfDay := 1, timeStep := 1, timeStepZone := 0, sysTimeElapsed := 0,
    warmupFlag := false, inletTemp := 20, massFlowRate := 1, cpFluid := 4, hxResistance := 1 }

/-- Concrete inputs whose recomputed elapsed time is `1` hour. -/
def wInp1 : GLHEInputs :=
  { dayOfSim := 1, hourOfDay := 2, timeStep := 1, timeStepZone := 0, sysTimeElapsed := 0,
    warmupFlag := false, inletTemp := 20, massFlowRate := 1, cpFluid := 4, hxResistance := 1 }

/-- As `wInp1` but with zero mass flow rate. -/
def wInp1z : GLHEInputs := { wInp1 with massFlowRate := 0 }

/-- As `wInp1` but with a different inlet temperature (an outer-iteration
re-call). -/
def wInp1b : GLHEInputs := { wInp1 with inletTemp := 25, massFlowRate := 2 }

/-- A device state carrying a nonzero exposed heat rate from an earlier step. -/
def wStateQ : GLHEState := { wState with QGLHE := 42 }

/-- Concrete g-function table used by witnesses: three pairs with strictly
increasing log-time axis. -/
def wTable : GFuncTable :=
  { NPairs := 3, LNTTS := fun i => (i : ℚ), GFNC := fun i => (i : ℚ) ^ 2 }

/-- A device state sitting on an hour-boundary crossing with two sub-hourly
entries of the elapsed hour and strictly decreasing most-recent-first
timestamps. -/
def wStateH : GLHEState :=
  { wState with
    N := 3, currentSimTime := 2, locHourOfDay := 3, prevHour := 0,
    prevTimeSteps := fun i => 4 - (i : ℚ), qnSubHr := fun i => (i : ℚ) }

end GroundHeatExchangers

namespace GroundHeatExchangers

/-! ## Projection lemmas for the solver phases -/

theorem applyResetAndClock_currentSimTime (inp : GLHEInputs) (s : GLHEState) :
    (applyResetAndClock inp s).currentSimTime = computedSimTime inp := by
  simp only [applyResetAndClock]
  split_ifs <;> rfl

theorem applyResetAndClock_locHourOfDay (inp : GLHEInputs) (s : GLHEState) :
    (applyResetAndClock inp s).locHourOfDay =
      ratTrunc (ratMod (computedSimTime inp) 24 + 1) := by
  simp only [applyResetAndClock]
  split_ifs <;> rfl

theorem applyResetAndClock_inletTemp (inp : GLHEInputs) (s : GLHEState) :
    (applyResetAndClock inp s).inletTemp = inp.inletTemp := by
  simp only [applyResetAndClock]
  split_ifs <;> rfl

theorem applyResetAndClock_QGLHE (inp : GLHEInputs) (s : GLHEState) :
    (applyResetAndClock inp s).QGLHE = s.QGLHE := by
  simp only [applyResetAndClock]
  split_ifs <;> rfl

theorem applyResetAndClock_prevHour (inp : GLHEInputs) (s : GLHEState) :
    (applyResetAndClock inp s).prevHour = s.prevHour := by
  simp only [applyResetAndClock]
  split_ifs <;> rfl

theorem applyResetAndClock_prevN (inp : GLHEInputs) (s : GLHEState) :
    (applyResetAndClock inp s).prevN = s.prevN := by
  simp only [applyResetAndClock]
  split_ifs <;> rfl

theorem applyResetAndClock_lastQnSubHr (inp : GLHEInputs) (s : GLHEState) :
    (applyResetAndClock inp s).lastQnSubHr = s.lastQnSubHr := by
  simp only [applyResetAndClock]
  split_ifs <;> rfl

theorem calcAggregateLoad_of_nonpos (s : GLHEState) (h : s.currentSimTime ≤ 0) :
    calcAggregateLoad s = s := by
  rw [calcAggregateLoad, if_pos h]

theorem calcGroundHeatExchanger_of_nonpos (cfg : GLHEConfig) (inp : GLHEInputs)
    (s : GLHEState) (ht : computedSimTime inp ≤ 0) :
    calcGroundHeatExchanger cfg inp s =
      { applyResetAndClock inp s with
        prevTimeSteps := (fun _ => 0),
        outletTemp := (applyResetAndClock inp s).inletTemp } := by
  have hcst : (applyResetAndClock inp s).currentSimTime ≤ 0 := by
    rw [applyResetAndClock_currentSimTime]; exact ht
  rw [calcGroundHeatExchanger, if_pos hcst]
  exact calcAggregateLoad_of_nonpos _ hcst

/-! ## Claim theorems (first batch) -/

/-- Claim C2 counterexample: at the concrete state `wStateQ` (prior heat rate
42) and inputs `wInp0` (recomputed elapsed time 0), `calcGroundHeatExchanger`
leaves the exposed heat rate at 42, not 0, contradicting the claim that the
heat rate is exactly zero after such a call. -/
theorem inactive_heat_rate_not_zeroed_counterexample :
    computedSimTime wInp0 ≤ 0 ∧ (calcGroundHeatExchanger wCfg wInp0 wStateQ).QGLHE ≠ 0 := by
  have h0 : computedSimTime wInp0 ≤ 0 := by norm_num [computedSimTime, wInp0]
  refine ⟨h0, ?_⟩
  rw [calcGroundHeatExchanger_of_nonpos wCfg wInp0 wStateQ h0]
  show (applyResetAndClock wInp0 wStateQ).QGLHE ≠ 0
  rw [applyResetAndClock_QGLHE]
  norm_num [wStateQ, wState]

/-- Claim C2 (amended): whenever `calcGroundHeatExchanger` runs with a
recomputed elapsed time `≤ 0`, the outlet temperature equals the inlet
temperature, and the exposed heat rate `QGLHE` is left unchanged from before
the call (it is not written in this branch), for every prior state. -/
theorem inactive_passes_inlet_and_keeps_heat_rate (cfg : GLHEConfig)
    (inp : GLHEInputs) (s : GLHEState) (ht : computedSimTime inp ≤ 0) :
    (calcGroundHeatExchanger cfg inp s).outletTemp = inp.inletTemp ∧
    (calcGroundHeatExchanger cfg inp s).QGLHE = s.QGLHE := by
  rw [calcGroundHeatExchanger_of_nonpos cfg inp s ht]
  exact ⟨applyResetAndClock_inletTemp inp s, applyResetAndClock_QGLHE inp s⟩

/-- Witness for C2's amended theorem at a concrete input. -/
theorem inactive_passes_inlet_and_keeps_heat_rate_witness :
    computedSimTime wInp0 ≤ 0 ∧
    ((calcGroundHeatExchanger wCfg wInp0 wState).outletTemp = wInp0.inletTemp ∧
      (calcGroundHeatExchanger wCfg wInp0 wState).QGLHE = wState.QGLHE) :=
  ⟨by norm_num [computedSimTime, wInp0],
    inactive_passes_inlet_and_keeps_heat_rate wCfg wInp0 wState
      (by norm_num [computedSimTime, wInp0])⟩

/-- Claim C3: with a positive recomputed elapsed time and nonpositive mass
flow rate, the step bypasses the linear solve: the exposed heat rate is
exactly zero, the outlet temperature exactly equals the inlet temperature, and
the average fluid and borehole wall temperatures both equal the undisturbed
ground temperature minus the superposed history sum alone. -/
theorem zero_flow_step_bypasses_solve (cfg : GLHEConfig) (inp : GLHEInputs)
    (s : GLHEState) (ht : 0 < computedSimTime inp) (hm : inp.massFlowRate ≤ 0) :
    (calcGroundHeatExchanger cfg inp s).QGLHE = 0 ∧
    (calcGroundHeatExchanger cfg inp s).outletTemp = inp.inletTemp ∧
    (calcGroundHeatExchanger cfg inp s).aveFluidTemp =
      cfg.tempGround -
        sumTotalOf cfg (calcAggregateLoad (pushHistory (applyResetAndClock inp s))) ∧
    (calcGroundHeatExchanger cfg inp s).boreholeTemp =
      cfg.tempGround -
        sumTotalOf cfg (calcAggregateLoad (pushHistory (applyResetAndClock inp s))) := by
  have hcst : ¬ (applyResetAndClock inp s).currentSimTime ≤ 0 := by
    rw [applyResetAndClock_currentSimTime]; exact not_le.mpr ht
  rw [calcGroundHeatExchanger, if_neg hcst]
  set s3 := calcAggregateLoad (pushHistory (applyResetAndClock inp s)) with hs3
  rcases eq_or_ne s3.N 1 with h1 | h1
  · have hout : calcOutputs cfg inp s3 = (0, cfg.tempGround, inp.inletTemp) := by
      rw [calcOutputs, if_pos h1, if_pos hm]
    have hsum : sumTotalOf cfg s3 = 0 := by rw [sumTotalOf, if_pos h1]
    refine ⟨?_, ?_, ?_, ?_⟩ <;> simp [hout, hsum]
  · have hout : calcOutputs cfg inp s3 =
        (0, cfg.tempGround - sumTotalOf cfg s3, inp.inletTemp) := by
      rw [calcOutputs, if_neg h1]
      simp only [if_pos hm]
    refine ⟨?_, ?_, ?_, ?_⟩ <;> simp [hout]

/-- Witness for C3 at a concrete input. -/
theorem zero_flow_step_bypasses_solve_witness :
    (0 < computedSimTime wInp1z ∧ wInp1z.massFlowRate ≤ 0) ∧
    ((calcGroundHeatExchanger wCfg wInp1z wStateQ).QGLHE = 0 ∧
      (calcGroundHeatExchanger wCfg wInp1z wStateQ).outletTemp = wInp1z.inletTemp ∧
      (calcGroundHeatExchanger wCfg wInp1z wStateQ).aveFluidTemp =
        wCfg.tempGround -
          sumTotalOf wCfg (calcAggregateLoad (pushHistory (applyResetAndClock wInp1z wStateQ))) ∧
      (calcGroundHeatExchanger wCfg wInp1z wStateQ).boreholeTemp =
        wCfg.tempGround -
          sumTotalOf wCfg (calcAggregateLoad (pushHistory (applyResetAndClock wInp1z wStateQ)))) :=
  ⟨⟨by norm_num [computedSimTime, wInp1z, wInp1], by norm_num [wInp1z, wInp1]⟩,
    zero_flow_step_bypasses_solve wCfg wInp1z wStateQ
      (by norm_num [computedSimTime, wInp1z, wInp1]) (by norm_num [wInp1z, wInp1])⟩

/-- Claim C9: a pipe wall thickness of at least the pipe outer radius makes
input processing end in a fatal error before any thermal-response computation
runs, and conversely a device that does reach a thermal-response computation
has a strictly positive inner pipe radius `pipeOutDia / 2 - pipeThick`. -/
theorem pipe_thickness_fatal_before_any_timestep (pipeThick pipeOutDia : ℚ)
    (cfg : GLHEConfig) (inp : GLHEInputs) (s : GLHEState) :
    (pipeOutDia / 2 ≤ pipeThick →
      simFirstCallOutcome pipeThick pipeOutDia cfg inp s = none) ∧
    (simFirstCallOutcome pipeThick pipeOutDia cfg inp s ≠ none →
      0 < pipeOutDia / 2 - pipeThick) := by
  constructor
  · intro h
    simp [simFirstCallOutcome, pipeGeometryInvalid, h]
  · intro h
    by_contra hc
    push_neg at hc
    apply h
    simp [simFirstCallOutcome, pipeGeometryInvalid]
    linarith

/-- Witness for C9 at a concrete invalid geometry. -/
theorem pipe_thickness_fatal_before_any_timestep_witness :
    ((1 : ℚ) / 2 ≤ 1 → simFirstCallOutcome 1 1 wCfg wInp0 wState = none) ∧
    (simFirstCallOutcome 1 1 wCfg wInp0 wState ≠ none → 0 < (1 : ℚ) / 2 - 1) :=
  pipe_thickness_fatal_before_any_timestep 1 1 wCfg wInp0 wState

/-- Claim C10: the slinky g-function grid derives its horizon from 356-day
years: the year-to-seconds factor is `356*24*60*60 = 30758400` (not the
365-day `31536000`), `tLg_max = log10(maxSimYears * 30758400 / 3600) =
log10(8544 * maxSimYears)`, the table size is the truncation of
`(tLg_max - (-2)) / 0.25 + 1 = 4*tLg_max + 9`, and the stored log-time grid is
`LNTTS(NT) = -2 + 0.25*(NT - 1)`. -/
theorem slinky_grid_uses_356_day_years :
    convertYearsToSeconds = 30758400 ∧
    convertYearsToSeconds = 356 * 86400 ∧
    convertYearsToSeconds ≠ 365 * 86400 ∧
    (∀ lg10 : ℚ → ℚ, ∀ y : ℚ,
      slinkyTLgMax lg10 y = lg10 (8544 * y) ∧
      slinkyNPairs lg10 y = ratTrunc (4 * lg10 (8544 * y) + 9)) ∧
    (∀ NT : ℤ, slinkyLNTTS NT = -2 + ((NT : ℚ) - 1) / 4) := by
  refine ⟨by norm_num [convertYearsToSeconds], by norm_num [convertYearsToSeconds],
    by norm_num [convertYearsToSeconds], ?_, ?_⟩
  · intro lg10 y
    have harg : y * convertYearsToSeconds / 3600 = 8544 * y := by
      rw [convertYearsToSeconds]; ring
    constructor
    · rw [slinkyTLgMax, harg]
    · rw [slinkyNPairs, slinkyTLgMax, harg]
      congr 1
      ring
  · intro NT
    rw [slinkyLNTTS]
    ring

theorem runCalls_of_first_time_false (ds : List ℕ) :
    ∀ st : GFuncGuardState, st.firstTime = false →
      (runCalls ds st).gFuncsComputed = st.gFuncsComputed := by
  induction ds with
  | nil => intro st _; rfl
  | cons d ds ih =>
    intro st h
    have h1 : (callDevice d st).gFuncsComputed = st.gFuncsComputed := by
      simp [callDevice, h]
    have h2 : (callDevice d st).firstTime = false := by
      simp [callDevice, h]
    rw [runCalls, ih _ h2, h1]

/-- Claim C8: the one-time g-function guard is a single function-static flag
shared by all devices, so with two devices the second device performs a
thermal-response computation although its `calcGFunctions` never ran — and it
never runs afterwards either.  This exhibits the code violating the
"exactly once per device, before that device's first thermal-response
computation" requirement. -/
theorem shared_first_time_guard_skips_second_device :
    (runCalls [1, 2] initialGuardState).thermalCalls 2 = 1 ∧
    (runCalls [1, 2] initialGuardState).gFuncsComputed 2 = false ∧
    (runCalls [1, 2] initialGuardState).gFuncsComputed 1 = true ∧
    (∀ ds : List ℕ,
      (runCalls ds (runCalls [1, 2] initialGuardState)).gFuncsComputed 2 = false) := by
  refine ⟨by decide, by decide, by decide, ?_⟩
  intro ds
  rw [runCalls_of_first_time_false ds _ (by decide)]
  decide

/-- Claim C4 counterexample: at concrete inputs (ground 15 C, tube length 100,
inlet 20 C, flow 1, cp 4, resistance 1, current-step response factor 1) the
`N = 1` direct branch and the general superposition branch with empty history
do not produce the same `(q, fluidAveTemp, ToutNew)` triple: the average fluid
temperatures differ. -/
theorem first_step_vs_general_counterexample :
    solveFirstStep wCfg wInp1 1 ≠ solveGeneral wCfg wInp1 1 0 0 := by
  have hne : (solveFirstStep wCfg wInp1 1).2.1 ≠ (solveGeneral wCfg wInp1 1 0 0).2.1 := by
    norm_num [solveFirstStep, solveGeneral, wCfg, wInp1]
  exact fun h => hne (by rw [h])

/-- Claim C4 (amended): for positive mass flow rate, specific heat and tube
length, the `N = 1` direct branch and the general superposition branch with
empty history (`sumTotal = 0`, `QnSubHr(1) = 0`, and the same current-step
response factor, i.e. `prevTimeSteps(2) = 0`) produce exactly the same heat
rate and outlet temperature, while the general branch's average fluid
temperature differs from the direct branch's by exactly `q * rq` (the direct
branch omits the current-step g-function term from `fluidAveTemp`). -/
theorem first_step_matches_general_with_empty_history (cfg : GLHEConfig)
    (inp : GLHEInputs) (rq : ℚ) (hm : 0 < inp.massFlowRate) (hcp : 0 < inp.cpFluid)
    (hL : 0 < cfg.totalTubeLength) :
    (solveFirstStep cfg inp rq).1 = (solveGeneral cfg inp rq 0 0).1 ∧
    (solveFirstStep cfg inp rq).2.2 = (solveGeneral cfg inp rq 0 0).2.2 ∧
    (solveGeneral cfg inp rq 0 0).2.1 =
      (solveFirstStep cfg inp rq).2.1 - (solveGeneral cfg inp rq 0 0).1 * rq := by
  have hmc : inp.massFlowRate * inp.cpFluid ≠ 0 := (mul_pos hm hcp).ne'
  have hinv : 1 / (inp.massFlowRate * inp.cpFluid / cfg.totalTubeLength)
      = 2 * (cfg.totalTubeLength / (2 * inp.massFlowRate * inp.cpFluid)) := by
    rw [one_div_div]
    field_simp
    ring
  have hden : inp.hxResistance + rq
        - cfg.totalTubeLength / (2 * inp.massFlowRate * inp.cpFluid)
        + 1 / (inp.massFlowRate * inp.cpFluid / cfg.totalTubeLength)
      = rq + inp.hxResistance + cfg.totalTubeLength / (2 * inp.massFlowRate * inp.cpFluid) := by
    rw [hinv]; ring
  simp only [solveFirstStep, solveGeneral, zero_mul, sub_zero, zero_sub, neg_zero]
  rw [hden]
  exact ⟨rfl, by ring, by ring⟩

/-- Witness for C4's amended theorem at a concrete input. -/
theorem first_step_matches_general_with_empty_history_witness :
    (0 < wInp1.massFlowRate ∧ 0 < wInp1.cpFluid ∧ 0 < wCfg.totalTubeLength) ∧
    ((solveFirstStep wCfg wInp1 1).1 = (solveGeneral wCfg wInp1 1 0 0).1 ∧
      (solveFirstStep wCfg wInp1 1).2.2 = (solveGeneral wCfg wInp1 1 0 0).2.2 ∧
      (solveGeneral wCfg wInp1 1 0 0).2.1 =
        (solveFirstStep wCfg wInp1 1).2.1 - (solveGeneral wCfg wInp1 1 0 0).1 * 1) :=
  ⟨⟨by norm_num [wInp1], by norm_num [wInp1], by norm_num [wCfg]⟩,
    first_step_matches_general_with_empty_history wCfg wInp1 1
      (by norm_num [wInp1]) (by norm_num [wInp1]) (by norm_num [wCfg])⟩

theorem hourlyAggStep_qnHr_one (s : GLHEState) (hcross : s.prevHour ≠ s.locHourOfDay) :
    (hourlyAggStep s).qnHr 1 =
      (∑ J ∈ Finset.Icc (1 : ℤ) (s.N - s.lastHourN 1),
        s.qnSubHr J * |s.prevTimeSteps J - s.prevTimeSteps (J + 1)|) /
      |s.prevTimeSteps 1 - s.prevTimeSteps
        (if 1 ≤ s.N - s.lastHourN 1 then s.N - s.lastHourN 1 + 1 else 1)| := by
  rw [hourlyAggStep, if_pos hcross]
  simp [eoshiftQ]

theorem monthlyAggStep_qnHr (s : GLHEState) : (monthlyAggStep s).qnHr = s.qnHr := by
  rw [monthlyAggStep]
  split_ifs <;> rfl

theorem prevHourUpdate_qnHr (s : GLHEState) : (prevHourUpdate s).qnHr = s.qnHr := by
  rw [prevHourUpdate]
  split_ifs <;> rfl

theorem sum_abs_telescope (p : ℤ → ℚ) :
    ∀ m : ℤ, 1 ≤ m → (∀ J : ℤ, 1 ≤ J → J ≤ m → p (J + 1) ≤ p J) →
      ∑ J ∈ Finset.Icc (1 : ℤ) m, |p J - p (J + 1)| = p 1 - p (m + 1) := by
  refine Int.le_induction ?_ ?_
  · intro h
    rw [Finset.Icc_self, Finset.sum_singleton,
      abs_of_nonneg (sub_nonneg.mpr (h 1 le_rfl le_rfl))]
  · intro n hn ih hmono
    have hins : Finset.Icc (1 : ℤ) (n + 1) = insert (n + 1) (Finset.Icc (1 : ℤ) n) := by
      ext x
      simp only [Finset.mem_Icc, Finset.mem_insert]
      omega
    rw [hins, Finset.sum_insert (by simp)]
    rw [ih (fun J h1 h2 => hmono J h1 (by omega))]
    rw [abs_of_nonneg (sub_nonneg.mpr (hmono (n + 1) (by omega) le_rfl))]
    ring

/-- Claim C5: on an hour-boundary crossing with monotone most-recent-first
timestamps, the flow-weighted time average pushed into `QnHr(1)` by
`calcAggregateLoad`, multiplied by the time span from the hour's start to the
current instant `|prevTimeSteps(1) - prevTimeSteps(J_final)|`, equals the sum
of the sub-hourly pulses it replaces, each weighted by its own sub-span
(energy-conservation round trip; exact over `ℚ`). -/
theorem hourly_aggregation_conserves_energy (s : GLHEState)
    (hpos : 0 < s.currentSimTime) (hcross : s.prevHour ≠ s.locHourOfDay)
    (hmono : ∀ J : ℤ, 1 ≤ J → J ≤ s.N - s.lastHourN 1 →
      s.prevTimeSteps (J + 1) ≤ s.prevTimeSteps J) :
    (calcAggregateLoad s).qnHr 1 *
      |s.prevTimeSteps 1 - s.prevTimeSteps
        (if 1 ≤ s.N - s.lastHourN 1 then s.N - s.lastHourN 1 + 1 else 1)| =
    ∑ J ∈ Finset.Icc (1 : ℤ) (s.N - s.lastHourN 1),
      s.qnSubHr J * |s.prevTimeSteps J - s.prevTimeSteps (J + 1)| := by
  have hq1 : (calcAggregateLoad s).qnHr 1 =
      (∑ J ∈ Finset.Icc (1 : ℤ) (s.N - s.lastHourN 1),
        s.qnSubHr J * |s.prevTimeSteps J - s.prevTimeSteps (J + 1)|) /
      |s.prevTimeSteps 1 - s.prevTimeSteps
        (if 1 ≤ s.N - s.lastHourN 1 then s.N - s.lastHourN 1 + 1 else 1)| := by
    rw [calcAggregateLoad, if_neg (not_le.mpr hpos), prevHourUpdate_qnHr, monthlyAggStep_qnHr,
      hourlyAggStep_qnHr_one s hcross]
  rw [hq1]
  set limit := s.N - s.lastHourN 1 with hlimit
  by_cases hl : 1 ≤ limit
  · rw [if_pos hl]
    have hS : |s.prevTimeSteps 1 - s.prevTimeSteps (limit + 1)| =
        ∑ J ∈ Finset.Icc (1 : ℤ) limit, |s.prevTimeSteps J - s.prevTimeSteps (J + 1)| := by
      rw [sum_abs_telescope s.prevTimeSteps limit hl hmono]
      refine abs_of_nonneg ?_
      rw [← sum_abs_telescope s.prevTimeSteps limit hl hmono]
      exact Finset.sum_nonneg fun J _ => abs_nonneg _
    rcases eq_or_ne |s.prevTimeSteps 1 - s.prevTimeSteps (limit + 1)| 0 with hz | hz
    · have hterms : ∀ J ∈ Finset.Icc (1 : ℤ) limit,
          |s.prevTimeSteps J - s.prevTimeSteps (J + 1)| = 0 := by
        have := hS.symm.trans hz
        intro J hJ
        exact (Finset.sum_eq_zero_iff_of_nonneg fun J _ => abs_nonneg _).mp this J hJ
      rw [hz, mul_zero]
      symm
      exact Finset.sum_eq_zero fun J hJ => by rw [hterms J hJ, mul_zero]
    · exact div_mul_cancel₀ _ hz
  · rw [if_neg hl]
    have hempty : Finset.Icc (1 : ℤ) limit = ∅ := by
      rw [Finset.Icc_eq_empty_iff]
      omega
    rw [hempty]
    simp

/-- Witness for C5 at a concrete hour-crossing state with two sub-hourly
entries. -/
theorem hourly_aggregation_conserves_energy_witness :
    (0 < wStateH.currentSimTime ∧ wStateH.prevHour ≠ wStateH.locHourOfDay ∧
      (∀ J : ℤ, 1 ≤ J → J ≤ wStateH.N - wStateH.lastHourN 1 →
        wStateH.prevTimeSteps (J + 1) ≤ wStateH.prevTimeSteps J)) ∧
    (calcAggregateLoad wStateH).qnHr 1 *
      |wStateH.prevTimeSteps 1 - wStateH.prevTimeSteps
        (if 1 ≤ wStateH.N - wStateH.lastHourN 1 then wStateH.N - wStateH.lastHourN 1 + 1
         else 1)| =
    ∑ J ∈ Finset.Icc (1 : ℤ) (wStateH.N - wStateH.lastHourN 1),
      wStateH.qnSubHr J * |wStateH.prevTimeSteps J - wStateH.prevTimeSteps (J + 1)| :=
  ⟨⟨by norm_num [wStateH, wState], by norm_num [wStateH, wState],
    fun J h1 h2 => by
      simp only [wStateH, wState]
      push_cast
      linarith⟩,
    hourly_aggregation_conserves_energy wStateH
      (by norm_num [wStateH, wState]) (by norm_num [wStateH, wState])
      (fun J h1 h2 => by
        simp only [wStateH, wState]
        push_cast
        linarith)⟩

/-- Claim C6: kernel selection by inter-ring center distance in
`GLHESlinky::calcGFunctions`.  With a nonnegative coil diameter (distances
compared through squares, equivalent since both sides are nonnegative):
within `2.5 + coilDiameter` of center distance the contribution is the
symmetry weight times the Simpson double integral with 33 outer nodes and 561
inner nodes — 1089 inner nodes exactly when the source and observation rings
coincide; beyond `10 + coilDiameter` the contribution is exactly zero (for
every near-field kernel, i.e. no integral is evaluated); in between, the
contribution is the symmetry weight times the closed-form mid-field response,
again independent of the near-field kernel, so no double integral is
evaluated. -/
theorem ring_pair_kernel_selection (c : SlinkyConfig) (m n m1 n1 : ℤ) (t : ℚ)
    (hcd : 0 ≤ c.coilDiameter) :
    (distToCenterSq c m n m1 n1 ≤ (5 / 2 + c.coilDiameter) ^ 2 →
      gFuncin c m n m1 n1 t =
        gFuncWeight c m1 n1 *
          doubleIntegral c m n m1 n1 t 33 (if m1 = m ∧ n1 = n then 1089 else 561)) ∧
    ((10 + c.coilDiameter) ^ 2 < distToCenterSq c m n m1 n1 →
      ∀ k, gFuncin { c with nearKernel := k } m n m1 n1 t = 0) ∧
    ((5 / 2 + c.coilDiameter) ^ 2 < distToCenterSq c m n m1 n1 →
      distToCenterSq c m n m1 n1 ≤ (10 + c.coilDiameter) ^ 2 →
      ∀ k, gFuncin { c with nearKernel := k } m n m1 n1 t =
        gFuncWeight c m1 n1 * c.midKernel m n m1 n1 t) := by
  refine ⟨?_, ?_, ?_⟩
  · intro hnear
    rw [gFuncin, if_pos hnear]
  · intro hfar k
    have hd : distToCenterSq { c with nearKernel := k } m n m1 n1 =
        distToCenterSq c m n m1 n1 := rfl
    have hnot : ¬ distToCenterSq { c with nearKernel := k } m n m1 n1 ≤
        (5 / 2 + ({ c with nearKernel := k } : SlinkyConfig).coilDiameter) ^ 2 := by
      rw [hd]
      push_neg
      nlinarith [hfar, hcd]
    rw [gFuncin, if_neg hnot, if_pos (by rw [hd]; exact hfar)]
  · intro hmid1 hmid2 k
    have hd : distToCenterSq { c with nearKernel := k } m n m1 n1 =
        distToCenterSq c m n m1 n1 := rfl
    have hnot1 : ¬ distToCenterSq { c with nearKernel := k } m n m1 n1 ≤
        (5 / 2 + ({ c with nearKernel := k } : SlinkyConfig).coilDiameter) ^ 2 := by
      rw [hd]
      exact not_le.mpr hmid1
    have hnot2 : ¬ ((10 : ℚ) + ({ c with nearKernel := k } : SlinkyConfig).coilDiameter) ^ 2 <
        distToCenterSq { c with nearKernel := k } m n m1 n1 := by
      rw [hd]
      exact not_lt.mpr hmid2
    rw [gFuncin, if_neg hnot1, if_neg hnot2]
    rfl

/-- Concrete slinky configuration exercising C6's theorem. -/
def wSlinky : SlinkyConfig :=
  { numTrenches := 3, numCoils := 3, coilPitch := 1, trenchSpacing := 2, coilDiameter := 1,
    twoPi := 6, nearKernel := fun _ _ _ _ _ _ _ => 1, midKernel := fun _ _ _ _ _ => 1 }

/-- Witness for C6 at a concrete configuration and ring pair. -/
theorem ring_pair_kernel_selection_witness :
    (0 : ℚ) ≤ wSlinky.coilDiameter ∧
    ((distToCenterSq wSlinky 1 1 1 1 ≤ (5 / 2 + wSlinky.coilDiameter) ^ 2 →
      gFuncin wSlinky 1 1 1 1 1 =
        gFuncWeight wSlinky 1 1 *
          doubleIntegral wSlinky 1 1 1 1 1 33 (if (1 : ℤ) = 1 ∧ (1 : ℤ) = 1 then 1089 else 561)) ∧
    ((10 + wSlinky.coilDiameter) ^ 2 < distToCenterSq wSlinky 1 1 1 1 →
      ∀ k, gFuncin { wSlinky with nearKernel := k } 1 1 1 1 1 = 0) ∧
    ((5 / 2 + wSlinky.coilDiameter) ^ 2 < distToCenterSq wSlinky 1 1 1 1 →
      distToCenterSq wSlinky 1 1 1 1 ≤ (10 + wSlinky.coilDiameter) ^ 2 →
      ∀ k, gFuncin { wSlinky with nearKernel := k } 1 1 1 1 1 =
        gFuncWeight wSlinky 1 1 * wSlinky.midKernel 1 1 1 1 1)) :=
  ⟨by norm_num [wSlinky], ring_pair_kernel_selection wSlinky 1 1 1 1 1 (by norm_num [wSlinky])⟩

theorem onSegment_of_formula (x1 y1 x2 y2 x : ℚ) (hne : x1 ≠ x2) :
    onSegment x1 y1 x2 y2 x (((x - x2) / (x1 - x2)) * (y1 - y2) + y2) := by
  have hd : x1 - x2 ≠ 0 := sub_ne_zero.mpr hne
  rw [onSegment]
  field_simp
  ring

theorem onSegment_symm (x1 y1 x2 y2 x y : ℚ) (h : onSegment x1 y1 x2 y2 x y) :
    onSegment x2 y2 x1 y1 x y := by
  rw [onSegment] at h ⊢
  linear_combination -h

theorem bsGo_found (L : ℤ → ℚ) (q : ℚ) (np : ℤ)
    (hmono : ∀ i j : ℤ, 1 ≤ i → i < j → j ≤ np → L i < L j) :
    ∀ d : ℕ, ∀ low high lastMid k : ℤ, (high + 1 - low).toNat ≤ d →
      1 ≤ low → low ≤ k → k ≤ high → high ≤ np → L k = q →
      bsGo L q low high lastMid = (true, k) := by
  intro d
  induction d with
  | zero =>
    intro low high lastMid k hd h1 h2 h3 h4 hk
    omega
  | succ d ih =>
    intro low high lastMid k hd h1 h2 h3 h4 hk
    have hlh : low ≤ high := le_trans h2 h3
    rw [bsGo, if_pos hlh]
    set mid := (low + high) / 2 with hmiddef
    have hmlow : low ≤ mid := by omega
    have hmhigh : mid ≤ high := by omega
    by_cases hc1 : L mid < q
    · rw [if_pos hc1]
      have hmk : mid < k := by
        by_contra hcon
        push_neg at hcon
        have hle : L k ≤ L mid := by
          rcases eq_or_lt_of_le hcon with he | hl
          · rw [he]
          · exact le_of_lt (hmono k mid (by omega) hl (by omega))
        rw [hk] at hle
        exact absurd (lt_of_le_of_lt hle hc1) (lt_irrefl q)
      exact ih (mid + 1) high mid k (by omega) (by omega) (by omega) h3 h4 hk
    · rw [if_neg hc1]
      by_cases hc2 : q < L mid
      · rw [if_pos hc2]
        have hkm : k < mid := by
          by_contra hcon
          push_neg at hcon
          have hle : L mid ≤ L k := by
            rcases eq_or_lt_of_le hcon with he | hl
            · rw [he]
            · exact le_of_lt (hmono mid k (by omega) hl (by omega))
          rw [hk] at hle
          exact absurd (lt_of_lt_of_le hc2 hle) (lt_irrefl q)
        exact ih low (mid - 1) mid k (by omega) h1 h2 (by omega) (by omega) hk
      · rw [if_neg hc2]
        have hLmid : L mid = q := le_antisymm (not_lt.mp hc2) (not_lt.mp hc1)
        have hmk : mid = k := by
          by_contra hne
          rcases lt_or_gt_of_ne hne with hl | hg
          · have := hmono mid k (by omega) hl (by omega)
            rw [hLmid, hk] at this
            exact absurd this (lt_irrefl q)
          · have := hmono k mid (by omega) hg (by omega)
            rw [hLmid, hk] at this
            exact absurd this (lt_irrefl q)
        rw [hmk]

theorem bsGo_not_found (L : ℤ → ℚ) (q : ℚ) (np : ℤ)
    (hmono : ∀ i j : ℤ, 1 ≤ i → i < j → j ≤ np → L i < L j)
    (hq1 : L 1 < q) (hqN : q < L np) :
    ∀ d : ℕ, ∀ low high lastMid : ℤ, (high + 1 - low).toNat ≤ d →
      1 ≤ low → low ≤ high → high ≤ np →
      (2 ≤ low → L (low - 1) < q) → (high < np → q < L (high + 1)) →
      (∀ i : ℤ, low ≤ i → i ≤ high → L i ≠ q) →
      ∃ m : ℤ, bsGo L q low high lastMid = (false, m) ∧
        2 ≤ bsAdj L q m ∧ bsAdj L q m ≤ np ∧
        L (bsAdj L q m - 1) < q ∧ q < L (bsAdj L q m) := by
  intro d
  induction d with
  | zero =>
    intro low high lastMid hd h1 hlh h4 hb1 hb2 hnm
    omega
  | succ d ih =>
    intro low high lastMid hd h1 hlh h4 hb1 hb2 hnm
    rw [bsGo, if_pos hlh]
    set mid := (low + high) / 2 with hmiddef
    have hmlow : low ≤ mid := by omega
    have hmhigh : mid ≤ high := by omega
    by_cases hc1 : L mid < q
    · rw [if_pos hc1]
      by_cases hmh : mid = high
      · rw [bsGo, if_neg (by omega : ¬ (mid + 1 ≤ high))]
        refine ⟨mid, rfl, ?_⟩
        have hhnp : high < np := by
          rcases eq_or_lt_of_le h4 with he | hl
          · exfalso
            rw [hmh, he] at hc1
            exact absurd (lt_trans hc1 hqN) (lt_irrefl _)
          · exact hl
        rw [bsAdj, if_pos hc1]
        refine ⟨by omega, by omega, ?_, ?_⟩
        · rw [add_sub_cancel_right]
          exact hc1
        · rw [hmh]
          exact hb2 hhnp
      · exact ih (mid + 1) high mid (by omega) (by omega) (by omega) h4
          (fun _ => by rw [add_sub_cancel_right]; exact hc1) hb2
          (fun i hi1 hi2 => hnm i (by omega) hi2)
    · rw [if_neg hc1]
      by_cases hc2 : q < L mid
      · rw [if_pos hc2]
        by_cases hml : mid = low
        · rw [bsGo, if_neg (by omega : ¬ (low ≤ mid - 1))]
          refine ⟨mid, rfl, ?_⟩
          have h2m : 2 ≤ mid := by
            rcases (by omega : mid = 1 ∨ 2 ≤ mid) with he | hge
            · exfalso
              rw [he] at hc2
              exact absurd (lt_trans hq1 hc2) (lt_irrefl _)
            · exact hge
          rw [bsAdj, if_neg hc1]
          refine ⟨h2m, by omega, ?_, hc2⟩
          rw [hml]
          exact hb1 (by omega)
        · exact ih low (mid - 1) mid (by omega) h1 (by omega) (by omega) hb1
            (fun _ => by rw [sub_add_cancel]; exact hc2)
            (fun i hi1 hi2 => hnm i hi1 (by omega))
      · exfalso
        exact hnm mid (by omega) (by omega) (le_antisymm (not_lt.mp hc2) (not_lt.mp hc1))

/-- Claim C1: for a table with strictly increasing log-time axis and at least
two pairs, `interpGFunc` realizes the piecewise-linear law: between two
adjacent entries the returned value lies on the straight line through those
entries; a query equal to a stored log-time returns that entry's stored
response; a query below the first entry lies on the extrapolation line through
entries 1 and 2; and a query above the last entry lies on the extrapolation
line through entries `NPairs-1` and `NPairs` (linear extrapolation, not a
clamped boundary value). -/
theorem interpGFunc_piecewise_linear (tb : GFuncTable)
    (hmono : ∀ i j : ℤ, 1 ≤ i → i < j → j ≤ tb.NPairs → tb.LNTTS i < tb.LNTTS j)
    (hN : 2 ≤ tb.NPairs) :
    (∀ k q, 1 ≤ k → k + 1 ≤ tb.NPairs → tb.LNTTS k < q → q < tb.LNTTS (k + 1) →
      onSegment (tb.LNTTS k) (tb.GFNC k) (tb.LNTTS (k + 1)) (tb.GFNC (k + 1)) q
        (interpGFunc tb q)) ∧
    (∀ k, 1 ≤ k → k ≤ tb.NPairs → interpGFunc tb (tb.LNTTS k) = tb.GFNC k) ∧
    (∀ q, q < tb.LNTTS 1 →
      onSegment (tb.LNTTS 1) (tb.GFNC 1) (tb.LNTTS 2) (tb.GFNC 2) q (interpGFunc tb q)) ∧
    (∀ q, tb.LNTTS tb.NPairs < q →
      onSegment (tb.LNTTS (tb.NPairs - 1)) (tb.GFNC (tb.NPairs - 1)) (tb.LNTTS tb.NPairs)
        (tb.GFNC tb.NPairs) q (interpGFunc tb q)) := by
  have h12 : tb.LNTTS 1 < tb.LNTTS 2 := hmono 1 2 le_rfl one_lt_two hN
  refine ⟨?_, ?_, ?_, ?_⟩
  · -- interior interpolation
    intro k q hk1 hk2 hlow hhigh
    have hL1q : tb.LNTTS 1 < q := by
      rcases eq_or_lt_of_le hk1 with he | hl
      · rw [he]; exact hlow
      · exact lt_trans (hmono 1 k le_rfl hl (by omega)) hlow
    have hqLN : q < tb.LNTTS tb.NPairs := by
      rcases eq_or_lt_of_le hk2 with he | hl
      · rw [← he]; exact hhigh
      · exact lt_trans hhigh (hmono (k + 1) tb.NPairs (by omega) hl le_rfl)
    have hcond1 : ¬ q ≤ tb.LNTTS 1 := not_le.mpr hL1q
    have hcond2 : ¬ tb.LNTTS tb.NPairs < q := not_lt.mpr (le_of_lt hqLN)
    have hnm : ∀ i : ℤ, 1 ≤ i → i ≤ tb.NPairs → tb.LNTTS i ≠ q := by
      intro i hi1 hi2
      rcases le_or_lt i k with hik | hki
      · have : tb.LNTTS i ≤ tb.LNTTS k := by
          rcases eq_or_lt_of_le hik with he | hl
          · rw [he]
          · exact le_of_lt (hmono i k hi1 hl (by omega))
        exact ne_of_lt (lt_of_le_of_lt this hlow)
      · have : tb.LNTTS (k + 1) ≤ tb.LNTTS i := by
          rcases (by omega : k + 1 = i ∨ k + 1 < i) with he | hl
          · rw [he]
          · exact le_of_lt (hmono (k + 1) i (by omega) hl hi2)
        exact (ne_of_lt (lt_of_lt_of_le hhigh this)).symm
    obtain ⟨m, hbs, hadj2, hadjN, hbr1, hbr2⟩ :=
      bsGo_not_found tb.LNTTS q tb.NPairs hmono hL1q hqLN
        (tb.NPairs + 1 - 1).toNat 1 tb.NPairs 0 (by omega) le_rfl (by omega) le_rfl
        (fun h => absurd h (by omega)) (fun h => absurd h (by omega)) hnm
    have hmadj : bsAdj tb.LNTTS q m = k + 1 := by
      by_contra hne
      rcases lt_or_gt_of_ne hne with hlt | hgt
      · have hle : tb.LNTTS (bsAdj tb.LNTTS q m) ≤ tb.LNTTS k := by
          rcases (by omega : bsAdj tb.LNTTS q m = k ∨ bsAdj tb.LNTTS q m < k) with he | hl
          · rw [he]
          · exact le_of_lt (hmono _ k (by omega) hl (by omega))
        exact absurd (lt_of_lt_of_le hbr2 (le_of_lt (lt_of_le_of_lt hle hlow)))
          (lt_irrefl q)
      · have hle : tb.LNTTS (k + 1) ≤ tb.LNTTS (bsAdj tb.LNTTS q m - 1) := by
          rcases (by omega : k + 1 = bsAdj tb.LNTTS q m - 1 ∨
              k + 1 < bsAdj tb.LNTTS q m - 1) with he | hl
          · rw [he]
          · exact le_of_lt (hmono (k + 1) _ (by omega) hl (by omega))
        exact absurd (lt_of_le_of_lt hle hbr1) (not_lt.mpr (le_of_lt hhigh))
    have hval : interpGFunc tb q =
        ((q - tb.LNTTS (k + 1)) / (tb.LNTTS k - tb.LNTTS (k + 1))) *
          (tb.GFNC k - tb.GFNC (k + 1)) + tb.GFNC (k + 1) := by
      rw [interpGFunc, if_neg hcond1, if_neg hcond2, hbs]
      show ((q - tb.LNTTS (bsAdj tb.LNTTS q m)) /
          (tb.LNTTS (bsAdj tb.LNTTS q m - 1) - tb.LNTTS (bsAdj tb.LNTTS q m))) *
          (tb.GFNC (bsAdj tb.LNTTS q m - 1) - tb.GFNC (bsAdj tb.LNTTS q m)) +
          tb.GFNC (bsAdj tb.LNTTS q m) = _
      rw [hmadj, add_sub_cancel_right]
    rw [hval]
    exact onSegment_of_formula (tb.LNTTS k) (tb.GFNC k) (tb.LNTTS (k + 1)) (tb.GFNC (k + 1)) q
      (ne_of_lt (hmono k (k + 1) hk1 (by omega) hk2))
  · -- exact table entries
    intro k hk1 hk2
    rcases (by omega : k = 1 ∨ 2 ≤ k) with he | h2k
    · rw [he, interpGFunc, if_pos le_rfl]
      rw [sub_self, zero_div, zero_mul, zero_add]
    · have hcond1 : ¬ tb.LNTTS k ≤ tb.LNTTS 1 :=
        not_le.mpr (hmono 1 k le_rfl (by omega) hk2)
      have hcond2 : ¬ tb.LNTTS tb.NPairs < tb.LNTTS k := by
        rcases eq_or_lt_of_le hk2 with he | hl
        · rw [he]; exact lt_irrefl _
        · exact not_lt.mpr (le_of_lt (hmono k tb.NPairs (by omega) hl le_rfl))
      have hfound : bsGo tb.LNTTS (tb.LNTTS k) 1 tb.NPairs 0 = (true, k) :=
        bsGo_found tb.LNTTS (tb.LNTTS k) tb.NPairs hmono
          (tb.NPairs + 1 - 1).toNat 1 tb.NPairs 0 k (by omega) le_rfl (by omega) hk2 le_rfl rfl
      rw [interpGFunc, if_neg hcond1, if_neg hcond2, hfound]
  · -- extrapolation below the first entry
    intro q hq
    rw [interpGFunc, if_pos (le_of_lt hq)]
    exact onSegment_symm _ _ _ _ _ _
      (onSegment_of_formula (tb.LNTTS 2) (tb.GFNC 2) (tb.LNTTS 1) (tb.GFNC 1) q
        (ne_of_gt h12))
  · -- extrapolation above the last entry
    intro q hq
    have hcond1 : ¬ q ≤ tb.LNTTS 1 := by
      push_neg
      exact lt_trans (hmono 1 tb.NPairs le_rfl (by omega) le_rfl) hq
    rw [interpGFunc, if_neg hcond1, if_pos hq]
    exact onSegment_of_formula (tb.LNTTS (tb.NPairs - 1)) (tb.GFNC (tb.NPairs - 1))
      (tb.LNTTS tb.NPairs) (tb.GFNC tb.NPairs) q
      (ne_of_lt (hmono (tb.NPairs - 1) tb.NPairs (by omega) (by omega) le_rfl))

/-- Witness for C1 at a concrete three-entry table. -/
theorem interpGFunc_piecewise_linear_witness :
    ((∀ i j : ℤ, 1 ≤ i → i < j → j ≤ wTable.NPairs → wTable.LNTTS i < wTable.LNTTS j) ∧
      2 ≤ wTable.NPairs) ∧
    ((∀ k q, 1 ≤ k → k + 1 ≤ wTable.NPairs → wTable.LNTTS k < q → q < wTable.LNTTS (k + 1) →
      onSegment (wTable.LNTTS k) (wTable.GFNC k) (wTable.LNTTS (k + 1)) (wTable.GFNC (k + 1)) q
        (interpGFunc wTable q)) ∧
    (∀ k, 1 ≤ k → k ≤ wTable.NPairs → interpGFunc wTable (wTable.LNTTS k) = wTable.GFNC k) ∧
    (∀ q, q < wTable.LNTTS 1 →
      onSegment (wTable.LNTTS 1) (wTable.GFNC 1) (wTable.LNTTS 2) (wTable.GFNC 2) q
        (interpGFunc wTable q)) ∧
    (∀ q, wTable.LNTTS wTable.NPairs < q →
      onSegment (wTable.LNTTS (wTable.NPairs - 1)) (wTable.GFNC (wTable.NPairs - 1))
        (wTable.LNTTS wTable.NPairs) (wTable.GFNC wTable.NPairs) q (interpGFunc wTable q))) := by
  have hmono : ∀ i j : ℤ, 1 ≤ i → i < j → j ≤ wTable.NPairs →
      wTable.LNTTS i < wTable.LNTTS j := by
    intro i j h1 h2 h3
    simp only [wTable]
    exact_mod_cast h2
  have hN : (2 : ℤ) ≤ wTable.NPairs := by norm_num [wTable]
  exact ⟨⟨hmono, hN⟩, interpGFunc_piecewise_linear wTable hmono hN⟩

theorem pushHistory_preserved (t : GLHEState) :
    (pushHistory t).currentSimTime = t.currentSimTime ∧
    (pushHistory t).locHourOfDay = t.locHourOfDay ∧
    (pushHistory t).prevHour = t.prevHour ∧
    (pushHistory t).qnHr = t.qnHr ∧
    (pushHistory t).lastHourN = t.lastHourN ∧
    (pushHistory t).qnMonthlyAgg = t.qnMonthlyAgg ∧
    (pushHistory t).updateCurSimTime = t.updateCurSimTime ∧
    (pushHistory t).triggerDesignDayReset = t.triggerDesignDayReset := by
  simp only [pushHistory]
  split_ifs <;> exact ⟨rfl, rfl, rfl, rfl, rfl, rfl, rfl, rfl⟩

theorem pushHistory_prevTimeSteps_one (t : GLHEState) :
    (pushHistory t).prevTimeSteps 1 = t.currentSimTime := by
  simp only [pushHistory]
  split_ifs with h1 h2 h3 <;> first
    | exact not_not.mp h1
    | simp [eoshiftQ]

theorem pushHistory_prevN_eq_N (t : GLHEState) :
    (pushHistory t).prevN = (pushHistory t).N := by
  simp only [pushHistory]
  split_ifs with h1 h2 h3 <;> first
    | rfl
    | exact (not_not.mp h2).symm
    | exact (not_not.mp h3).symm

theorem pushHistory_noop (t : GLHEState) (h1 : t.prevTimeSteps 1 = t.currentSimTime)
    (h2 : t.N = t.prevN) : pushHistory t = t := by
  rw [pushHistory, if_neg (not_not_intro h1), if_neg (not_not_intro h2)]

theorem calcAggregateLoad_preserved (t : GLHEState) :
    (calcAggregateLoad t).prevTimeSteps = t.prevTimeSteps ∧
    (calcAggregateLoad t).N = t.N ∧
    (calcAggregateLoad t).prevN = t.prevN ∧
    (calcAggregateLoad t).qnSubHr = t.qnSubHr ∧
    (calcAggregateLoad t).currentSimTime = t.currentSimTime ∧
    (calcAggregateLoad t).locHourOfDay = t.locHourOfDay ∧
    (calcAggregateLoad t).updateCurSimTime = t.updateCurSimTime ∧
    (calcAggregateLoad t).triggerDesignDayReset = t.triggerDesignDayReset := by
  rw [calcAggregateLoad]
  split_ifs with h
  · exact ⟨rfl, rfl, rfl, rfl, rfl, rfl, rfl, rfl⟩
  · simp only [prevHourUpdate, monthlyAggStep, hourlyAggStep]
    split_ifs <;> exact ⟨rfl, rfl, rfl, rfl, rfl, rfl, rfl, rfl⟩

theorem calcAggregateLoad_of_prevHour_eq (t : GLHEState)
    (h : t.prevHour = t.locHourOfDay) : calcAggregateLoad t = t := by
  rw [calcAggregateLoad]
  split_ifs with hc
  · rfl
  · rw [hourlyAggStep, if_neg (not_not_intro h),
      monthlyAggStep, if_neg (fun hx => hx.2 h),
      prevHourUpdate, if_neg (not_not_intro h)]

theorem calcAggregateLoad_prevHour_of_pos (t : GLHEState) (hpos : 0 < t.currentSimTime) :
    (calcAggregateLoad t).prevHour = t.locHourOfDay := by
  rw [calcAggregateLoad, if_neg (not_le.mpr hpos)]
  by_cases hc : t.prevHour = t.locHourOfDay
  · rw [hourlyAggStep, if_neg (not_not_intro hc),
      monthlyAggStep, if_neg (fun hx => hx.2 hc),
      prevHourUpdate, if_neg (not_not_intro hc)]
    exact hc
  · have hh1 : (hourlyAggStep t).prevHour = t.prevHour := by
      rw [hourlyAggStep]; split_ifs <;> rfl
    have hh2 : (hourlyAggStep t).locHourOfDay = t.locHourOfDay := by
      rw [hourlyAggStep]; split_ifs <;> rfl
    have hm1 : (monthlyAggStep (hourlyAggStep t)).prevHour = t.prevHour := by
      rw [monthlyAggStep]; split_ifs <;> exact hh1
    have hm2 : (monthlyAggStep (hourlyAggStep t)).locHourOfDay = t.locHourOfDay := by
      rw [monthlyAggStep]; split_ifs <;> exact hh2
    rw [prevHourUpdate, if_pos (by rw [hm1, hm2]; exact hc)]
    exact hm2

theorem applyResetAndClock_nr (inp : GLHEInputs) (s : GLHEState)
    (h : ¬ (inp.dayOfSim = 1 ∧
      ((s.triggerDesignDayReset && inp.warmupFlag) || s.updateCurSimTime) = true)) :
    (applyResetAndClock inp s).prevTimeSteps = s.prevTimeSteps ∧
    (applyResetAndClock inp s).N = s.N ∧
    (applyResetAndClock inp s).qnHr = s.qnHr ∧
    (applyResetAndClock inp s).qnSubHr = s.qnSubHr ∧
    (applyResetAndClock inp s).qnMonthlyAgg = s.qnMonthlyAgg ∧
    (applyResetAndClock inp s).lastHourN = s.lastHourN := by
  simp only [applyResetAndClock]
  split_ifs with h1 <;> first
    | exact ⟨rfl, rfl, rfl, rfl, rfl, rfl⟩
    | exact absurd h1 h

theorem applyResetAndClock_no_retrigger (inp : GLHEInputs) (s : GLHEState)
    (hd : inp.dayOfSim = 1) :
    (((applyResetAndClock inp s).triggerDesignDayReset && inp.warmupFlag) ||
      (applyResetAndClock inp s).updateCurSimTime) = false := by
  simp only [applyResetAndClock]
  cases hw : inp.warmupFlag <;> cases htr : s.triggerDesignDayReset <;>
    cases hup : s.updateCurSimTime <;> simp_all [hd]

theorem calcGroundHeatExchanger_pos_fields (cfg : GLHEConfig) (inp : GLHEInputs)
    (s : GLHEState) (ht : 0 < computedSimTime inp) :
    (calcGroundHeatExchanger cfg inp s).prevTimeSteps =
      (calcAggregateLoad (pushHistory (applyResetAndClock inp s))).prevTimeSteps ∧
    (calcGroundHeatExchanger cfg inp s).N =
      (calcAggregateLoad (pushHistory (applyResetAndClock inp s))).N ∧
    (calcGroundHeatExchanger cfg inp s).prevN =
      (calcAggregateLoad (pushHistory (applyResetAndClock inp s))).prevN ∧
    (calcGroundHeatExchanger cfg inp s).qnSubHr =
      (calcAggregateLoad (pushHistory (applyResetAndClock inp s))).qnSubHr ∧
    (calcGroundHeatExchanger cfg inp s).qnHr =
      (calcAggregateLoad (pushHistory (applyResetAndClock inp s))).qnHr ∧
    (calcGroundHeatExchanger cfg inp s).qnMonthlyAgg =
      (calcAggregateLoad (pushHistory (applyResetAndClock inp s))).qnMonthlyAgg ∧
    (calcGroundHeatExchanger cfg inp s).lastHourN =
      (calcAggregateLoad (pushHistory (applyResetAndClock inp s))).lastHourN ∧
    (calcGroundHeatExchanger cfg inp s).prevHour =
      (calcAggregateLoad (pushHistory (applyResetAndClock inp s))).prevHour ∧
    (calcGroundHeatExchanger cfg inp s).updateCurSimTime =
      (calcAggregateLoad (pushHistory (applyResetAndClock inp s))).updateCurSimTime ∧
    (calcGroundHeatExchanger cfg inp s).triggerDesignDayReset =
      (calcAggregateLoad (pushHistory (applyResetAndClock inp s))).triggerDesignDayReset := by
  have hcst : ¬ (applyResetAndClock inp s).currentSimTime ≤ 0 := by
    rw [applyResetAndClock_currentSimTime]; exact not_le.mpr ht
  rw [calcGroundHeatExchanger, if_neg hcst]
  exact ⟨rfl, rfl, rfl, rfl, rfl, rfl, rfl, rfl, rfl, rfl⟩

/-- Claim C7: if `calcGroundHeatExchanger` is called a second time at the same
(positive) elapsed simulation time — same clock inputs, possibly different
inlet temperature, flow rate or fluid properties from the caller's outer
iteration — the second call leaves all history state (`prevTimeSteps`, the
step counter `N`, `QnSubHr`, `QnHr`, `QnMonthlyAgg`, `LastHourN`, `prevHour`)
exactly as the first call left it. -/
theorem repeated_call_same_time_idempotent (cfg : GLHEConfig) (i1 i2 : GLHEInputs)
    (s : GLHEState) (hclock : sameClock i1 i2) (ht : 0 < computedSimTime i1) :
    (calcGroundHeatExchanger cfg i2 (calcGroundHeatExchanger cfg i1 s)).prevTimeSteps =
      (calcGroundHeatExchanger cfg i1 s).prevTimeSteps ∧
    (calcGroundHeatExchanger cfg i2 (calcGroundHeatExchanger cfg i1 s)).N =
      (calcGroundHeatExchanger cfg i1 s).N ∧
    (calcGroundHeatExchanger cfg i2 (calcGroundHeatExchanger cfg i1 s)).qnSubHr =
      (calcGroundHeatExchanger cfg i1 s).qnSubHr ∧
    (calcGroundHeatExchanger cfg i2 (calcGroundHeatExchanger cfg i1 s)).qnHr =
      (calcGroundHeatExchanger cfg i1 s).qnHr ∧
    (calcGroundHeatExchanger cfg i2 (calcGroundHeatExchanger cfg i1 s)).qnMonthlyAgg =
      (calcGroundHeatExchanger cfg i1 s).qnMonthlyAgg ∧
    (calcGroundHeatExchanger cfg i2 (calcGroundHeatExchanger cfg i1 s)).lastHourN =
      (calcGroundHeatExchanger cfg i1 s).lastHourN ∧
    (calcGroundHeatExchanger cfg i2 (calcGroundHeatExchanger cfg i1 s)).prevHour =
      (calcGroundHeatExchanger cfg i1 s).prevHour := by
  obtain ⟨hd, hh, hts, htz, hse, hw⟩ := hclock
  have hcst2 : computedSimTime i2 = computedSimTime i1 := by
    rw [computedSimTime, computedSimTime, ← hd, ← hh, ← hts, ← htz, ← hse]
  obtain ⟨e_p, e_N, e_pN, e_qs, e_qh, e_qm, e_lh, e_ph, e_up, e_tr⟩ :=
    calcGroundHeatExchanger_pos_fields cfg i1 s ht
  obtain ⟨aggP, aggN, aggPN, aggQS, aggCT, aggLC, aggUP, aggTR⟩ :=
    calcAggregateLoad_preserved (pushHistory (applyResetAndClock i1 s))
  obtain ⟨puCT, puLC, puPH, puQH, puLH, puQM, puUP, puTR⟩ :=
    pushHistory_preserved (applyResetAndClock i1 s)
  -- facts about the first call's result
  have f1 : (calcGroundHeatExchanger cfg i1 s).prevTimeSteps 1 = computedSimTime i1 := by
    rw [e_p, aggP, pushHistory_prevTimeSteps_one, applyResetAndClock_currentSimTime]
  have f2 : (calcGroundHeatExchanger cfg i1 s).prevN = (calcGroundHeatExchanger cfg i1 s).N := by
    rw [e_pN, e_N, aggPN, aggN, pushHistory_prevN_eq_N]
  have hPcst : 0 < (pushHistory (applyResetAndClock i1 s)).currentSimTime := by
    rw [puCT, applyResetAndClock_currentSimTime]; exact ht
  have f3 : (calcGroundHeatExchanger cfg i1 s).prevHour =
      ratTrunc (ratMod (computedSimTime i1) 24 + 1) := by
    rw [e_ph, calcAggregateLoad_prevHour_of_pos _ hPcst, puLC,
      applyResetAndClock_locHourOfDay]
  have fU : (calcGroundHeatExchanger cfg i1 s).updateCurSimTime =
      (applyResetAndClock i1 s).updateCurSimTime := by
    rw [e_up, aggUP, puUP]
  have fT : (calcGroundHeatExchanger cfg i1 s).triggerDesignDayReset =
      (applyResetAndClock i1 s).triggerDesignDayReset := by
    rw [e_tr, aggTR, puTR]
  -- the second call does not fire the reset
  have hnr : ¬ (i2.dayOfSim = 1 ∧
      (((calcGroundHeatExchanger cfg i1 s).triggerDesignDayReset && i2.warmupFlag) ||
        (calcGroundHeatExchanger cfg i1 s).updateCurSimTime) = true) := by
    rintro ⟨hd1, hu⟩
    have hd1' : i1.dayOfSim = 1 := by rw [hd]; exact hd1
    rw [fT, fU, ← hw] at hu
    rw [applyResetAndClock_no_retrigger i1 s hd1'] at hu
    exact Bool.false_ne_true hu
  obtain ⟨a2P, a2N, a2QH, a2QS, a2QM, a2LH⟩ :=
    applyResetAndClock_nr i2 (calcGroundHeatExchanger cfg i1 s) hnr
  -- the second call's history push is a no-op
  have hpid : pushHistory (applyResetAndClock i2 (calcGroundHeatExchanger cfg i1 s)) =
      applyResetAndClock i2 (calcGroundHeatExchanger cfg i1 s) := by
    apply pushHistory_noop
    · rw [a2P, applyResetAndClock_currentSimTime, hcst2]
      exact f1
    · rw [a2N, applyResetAndClock_prevN]
      exact f2.symm
  -- the second call's aggregation is a no-op
  have haid : calcAggregateLoad (applyResetAndClock i2 (calcGroundHeatExchanger cfg i1 s)) =
      applyResetAndClock i2 (calcGroundHeatExchanger cfg i1 s) := by
    apply calcAggregateLoad_of_prevHour_eq
    rw [applyResetAndClock_prevHour, applyResetAndClock_locHourOfDay, hcst2]
    exact f3
  obtain ⟨g_p, g_N, g_pN, g_qs, g_qh, g_qm, g_lh, g_ph, g_up, g_tr⟩ :=
    calcGroundHeatExchanger_pos_fields cfg i2 (calcGroundHeatExchanger cfg i1 s)
      (by rw [hcst2]; exact ht)
  refine ⟨?_, ?_, ?_, ?_, ?_, ?_, ?_⟩
  · rw [g_p, hpid, haid, a2P]
  · rw [g_N, hpid, haid, a2N]
  · rw [g_qs, hpid, haid, a2QS]
  · rw [g_qh, hpid, haid, a2QH]
  · rw [g_qm, hpid, haid, a2QM]
  · rw [g_lh, hpid, haid, a2LH]
  · rw [g_ph, hpid, haid, applyResetAndClock_prevHour]

/-- Witness for C7 at concrete inputs: a re-call at the same clock instant
with a different inlet temperature and flow rate. -/
theorem repeated_call_same_time_idempotent_witness :
    (sameClock wInp1 wInp1b ∧ 0 < computedSimTime wInp1) ∧
    ((calcGroundHeatExchanger wCfg wInp1b (calcGroundHeatExchanger wCfg wInp1 wStateQ)).prevTimeSteps =
      (calcGroundHeatExchanger wCfg wInp1 wStateQ).prevTimeSteps ∧
    (calcGroundHeatExchanger wCfg wInp1b (calcGroundHeatExchanger wCfg wInp1 wStateQ)).N =
      (calcGroundHeatExchanger wCfg wInp1 wStateQ).N ∧
    (calcGroundHeatExchanger wCfg wInp1b (calcGroundHeatExchanger wCfg wInp1 wStateQ)).qnSubHr =
      (calcGroundHeatExchanger wCfg wInp1 wStateQ).qnSubHr ∧
    (calcGroundHeatExchanger wCfg wInp1b (calcGroundHeatExchanger wCfg wInp1 wStateQ)).qnHr =
      (calcGroundHeatExchanger wCfg wInp1 wStateQ).qnHr ∧
    (calcGroundHeatExchanger wCfg wInp1b (calcGroundHeatExchanger wCfg wInp1 wStateQ)).qnMonthlyAgg =
      (calcGroundHeatExchanger wCfg wInp1 wStateQ).qnMonthlyAgg ∧
    (calcGroundHeatExchanger wCfg wInp1b (calcGroundHeatExchanger wCfg wInp1 wStateQ)).lastHourN =
      (calcGroundHeatExchanger wCfg wInp1 wStateQ).lastHourN ∧
    (calcGroundHeatExchanger wCfg wInp1b (calcGroundHeatExchanger wCfg wInp1 wStateQ)).prevHour =
      (calcGroundHeatExchanger wCfg wInp1 wStateQ).prevHour) := by
  have hclock : sameClock wInp1 wInp1b := ⟨rfl, rfl, rfl, rfl, rfl, rfl⟩
  have ht : 0 < computedSimTime wInp1 := by norm_num [computedSimTime, wInp1]
  exact ⟨⟨hclock, ht⟩, repeated_call_same_time_idempotent wCfg wInp1 wInp1b wStateQ hclock ht⟩

end GroundHeatExchangers